import Mathlib

/-
Shallow embedding of the indexed multi-world representation layer of
`causal_pyro` (files `causal_pyro/indexed/handlers.py` and
`causal_pyro/counterfactual/ops.py`), together with theorems checking the
natural-language specification against it.

Python mutable state is modelled by explicit state passing:
`IndexPlatesMessenger` instance state becomes `AllocState`; raising an
exception becomes returning `some err` alongside the (possibly partially
mutated) state, matching Python's in-place mutation semantics where
mutations performed before a raise persist on the object.
-/

namespace Chirho

abbrev Name := String

/-- Python exception classes raised by the embedded code: `assert` raises
AssertionError, explicit `raise ValueError(...)` raises ValueError. -/
inductive Err where
  | assertionError (msg : String)
  | valueError (msg : String)
deriving DecidableEq, Repr

/-- Whether an error is of ValueError class (AssertionError is not a
subclass of ValueError in Python). -/
def Err.isValueError : Err → Bool
  | .valueError _ => true
  | .assertionError _ => false

/-- The data of a `_LazyPlateMessenger` as constructed in
`IndexPlatesMessenger._pyro_add_indices`: a name, a (negative) tensor axis,
and a size. -/
structure Plate where
  name : Name
  dim : Int
  size : Nat
deriving DecidableEq, Repr

/-- State of an `IndexPlatesMessenger` instance: `plates` is the
OrderedDict `self.plates` in insertion order, `first_available_dim` the
mutable cursor, `orig_dim` the immutable `self._orig_dim`, and `inStack`
records whether the messenger is currently installed on the effect-handler
stack (set by the base `Messenger.__enter__` of the external engine; the
messenger's own assertions never read it). -/
@[ext]
structure AllocState where
  plates : List Plate
  first_available_dim : Int
  orig_dim : Int
  inStack : Bool
deriving DecidableEq, Repr

/-- Dictionary lookup `self.plates[name]` / membership `name in self.plates`. -/
def lookupPlate (s : AllocState) (n : Name) : Option Plate :=
  s.plates.find? (fun p => p.name == n)

/-- `IndexPlatesMessenger.__init__`: default `first_available_dim = -5`,
asserts it is negative. -/
def initMessenger (fad : Option Int) : Except Err AllocState :=
  let d := fad.getD (-5)
  if d < 0 then
    .ok { plates := [], first_available_dim := d, orig_dim := d, inStack := false }
  else
    .error (.assertionError "first_available_dim must be negative")

/-- `IndexPlatesMessenger.__enter__`: asserts `not self.plates` and
`self.first_available_dim == self._orig_dim`, then installs the messenger
on the handler stack via the base class. -/
def enterScope (s : AllocState) : Except Err AllocState :=
  if s.plates = [] then
    if s.first_available_dim = s.orig_dim then
      .ok { s with inStack := true }
    else
      .error (.assertionError "first_available_dim moved")
  else
    .error (.assertionError "plates not empty")

/-- Exception information passed to `__exit__` (`exc_type, exc_value,
traceback`); opaque, only its presence matters. -/
structure ExcInfo where
  present : Bool
deriving DecidableEq, Repr

/-- The loop body of `IndexPlatesMessenger.__exit__`:
`for name in reversed(list(self.plates.keys())): self.plates.pop(name).__exit__(...)`.
Each iteration pops the named plate from the dict (the plate's own
`__exit__`, which releases its tensor axis in the external engine, is
invoked at that moment); the returned list records the names in release
order. -/
def exitLoop (exc : Option ExcInfo) : AllocState → List Name → AllocState × List Name
  | s, [] => (s, [])
  | s, n :: rest =>
    let s1 : AllocState := { s with plates := s.plates.filter (fun p => decide (p.name ≠ n)) }
    let r := exitLoop exc s1 rest
    (r.1, n :: r.2)

/-- `IndexPlatesMessenger.__exit__`: releases all plates in reverse key
order, then resets the cursor to `self._orig_dim`; runs identically on the
normal and the exceptional exit path. -/
def exitScope (s : AllocState) (exc : Option ExcInfo) : AllocState × List Name :=
  let r := exitLoop exc s ((s.plates.map Plate.name).reverse)
  ({ r.1 with first_available_dim := s.orig_dim, inStack := false }, r.2)

/-- Errors produced by `_LazyPlateMessenger.__enter__` as observed by
`_enter_index_plate`: a ValueError whose message contains
"collide at dim", or any other ValueError. -/
inductive PlateEnterErr where
  | collideAtDim (dim : Int)
  | otherValueError (msg : String)
deriving DecidableEq, Repr

/-- Modelled from the spec: the axis-collision check of
`_LazyPlateMessenger.__enter__` (in `causal_pyro.indexed.internals`, not
under src); per the spec, axis assignment fails when the requested axis is
already used elsewhere in the program. `occupied` is the set of axes
already used by external plates/batch dimensions. -/
def plateEnter (occupied : Int → Bool) (p : Plate) : Except PlateEnterErr Plate :=
  if occupied p.dim then .error (.collideAtDim p.dim) else .ok p

/-- First part of the re-raised collision message of
`IndexPlatesMessenger._enter_index_plate`. -/
def collideAdviceHead (s : AllocState) : String :=
  "IndexPlatesMessenger was unable to allocate an index plate dimension at dimension "
    ++ toString s.first_available_dim ++ ".\n"

/-- The full re-raised collision message: advises setting a value less
than `self._orig_dim` for first_available_dim. -/
def collideAdviceMsg (s : AllocState) : String :=
  collideAdviceHead s
    ++ ("Try setting a value less than " ++ toString s.orig_dim)
    ++ " for first_available_dim that is less than the leftmost (most negative) plate dimension in your model."

/-- `IndexPlatesMessenger._enter_index_plate`: enters the plate; a
ValueError containing "collide at dim" is replaced by a ValueError advising
a smaller `first_available_dim`; other ValueErrors are re-raised unchanged.
(The subsequent reordering of the external handler stack is bookkeeping of
the external engine and is not modelled.) -/
def enterIndexPlate (occupied : Int → Bool) (s : AllocState) (p : Plate) :
    Except Err Plate :=
  match plateEnter occupied p with
  | .ok q => .ok q
  | .error (.collideAtDim _) => .error (.valueError (collideAdviceMsg s))
  | .error (.otherValueError m) => .error (.valueError m)

/-- One iteration of the loop in `IndexPlatesMessenger._pyro_add_indices`,
for a single `(name, indices)` item of the argument IndexSet. Python's
`max`/`min` on an empty set raise ValueError. -/
def addIndicesStep (occupied : Int → Bool) (s : AllocState) (name : Name)
    (indices : Finset ℕ) : AllocState × Option Err :=
  match lookupPlate s name with
  | none =>
    if hne : indices.Nonempty then
      let new_size := Nat.max (indices.max' hne + 1) indices.card
      match enterIndexPlate occupied s ⟨name, s.first_available_dim, new_size⟩ with
      | .error e => (s, some e)
      | .ok p =>
        ({ s with plates := s.plates ++ [p],
                  first_available_dim := s.first_available_dim - 1 }, none)
    else (s, some (.valueError "max arg is an empty sequence"))
  | some p =>
    if hne : indices.Nonempty then
      if 0 ≤ (indices.min' hne : Int) ∧
          (indices.min' hne : Int) ≤ (indices.card : Int) - 1 ∧
          (indices.card : Int) - 1 ≤ (indices.max' hne : Int) ∧
          (indices.max' hne : Int) < (p.size : Int) then
        (s, none)
      else
        (s, some (.assertionError ("cannot add " ++ name ++ " to " ++ toString p.size)))
    else (s, some (.valueError "min arg is an empty sequence"))

/-- An IndexSet: a mapping from names to sets of world indices, in
insertion order (Python dict). -/
abbrev IndexSet := List (Name × Finset ℕ)

/-- `IndexPlatesMessenger._pyro_add_indices`: iterates the items of the
argument IndexSet; an exception raised partway leaves the mutations of the
earlier iterations in place. -/
def addIndices (occupied : Int → Bool) (s : AllocState) :
    IndexSet → AllocState × Option Err
  | [] => (s, none)
  | (n, ix) :: rest =>
    match addIndicesStep occupied s n ix with
    | (s1, some e) => (s1, some e)
    | (s1, none) => addIndices occupied s1 rest

/-- The plates that `_pyro_add_indices` creates for a list of fresh items,
in order: the i-th gets axis `d - i` and size `max(max(indices)+1, len(indices))`. -/
def expectedNewPlates (d : Int) : IndexSet → List Plate
  | [] => []
  | (n, ix) :: rest =>
    ⟨n, d, Nat.max ((ix.max.getD 0) + 1) ix.card⟩ :: expectedNewPlates (d - 1) rest

/-- Modelled from the spec: indexed values of the scatter/gather algebra
(`causal_pyro.indexed.ops`, not under src). A value is either an opaque
base tensor or the merge of several branches, each tagged with the
IndexSet of worlds it occupies. -/
inductive IValue where
  | base (v : Int)
  | scattered (branches : List (IndexSet × IValue)) (event_dim : Nat)

/-- Merge one `(name, indices)` entry into an accumulated IndexSet,
unioning index sets of equal names and keeping first-appearance order. -/
def insertIndex (acc : IndexSet) (n : Name) (ix : Finset ℕ) : IndexSet :=
  match acc with
  | [] => [(n, ix)]
  | (m, jx) :: rest =>
    if m = n then (m, jx ∪ ix) :: rest else (m, jx) :: insertIndex rest n ix

/-- The union, per name, of a list of IndexSets (the keys of the branches
passed to `scatter`). -/
def unionIndexSets (ks : List IndexSet) : IndexSet :=
  ks.foldl (fun acc k => k.foldl (fun a p => insertIndex a p.1 p.2) acc) []

/-- Modelled from the spec: `scatter` (`causal_pyro.indexed.ops`, not under
src). Per the spec it registers new plates via the allocator for each
named axis of its branch keys (the union of index sets per name) and
merges the branch values into one indexed value spanning that union. -/
def scatter (occupied : Int → Bool) (s : AllocState)
    (branches : List (IndexSet × IValue)) (event_dim : Nat) :
    (AllocState × Option Err) × IValue :=
  (addIndices occupied s (unionIndexSets (branches.map Prod.fst)),
   IValue.scattered branches event_dim)

/-- The effect message of an `intervene` call as seen by
`_pyro_post_intervene`: `msg["name"]`, `msg["args"][0]` (the observed
value), `msg["value"]` (the intervened value produced by the default
handler), `msg["kwargs"]["event_dim"]`, and the propagation flags. -/
@[ext]
structure InterveneMsg where
  name : Option Name
  obs : IValue
  value : IValue
  event_dim : Option Nat
  stop : Bool
  done : Bool

/-- `MultiWorldCounterfactual._pyro_post_intervene`: defaults `event_dim`
to 0 via `kwargs.setdefault`, replaces a missing name by
"__intervention__", suffixes "_" and the current cursor value when the
name is already an allocated plate, and scatters observed/intervened onto
indices 0/1 of that axis. -/
def mwcPostIntervene (occupied : Int → Bool) (s : AllocState)
    (msg : InterveneMsg) : (AllocState × Option Err) × InterveneMsg :=
  let event_dim := msg.event_dim.getD 0
  let name0 := match msg.name with
    | none => "__intervention__"
    | some n => n
  let name := if (lookupPlate s name0).isSome then
      name0 ++ "_" ++ toString s.first_available_dim
    else name0
  let r := scatter occupied s
    [([(name, ({0} : Finset ℕ))], msg.obs), ([(name, ({1} : Finset ℕ))], msg.value)]
    event_dim
  (r.1, { msg with name := some name, event_dim := some event_dim, value := r.2 })

/-- `TwinWorldCounterfactual._pyro_post_intervene`: same scatter step but
the axis name is fixed to "__intervention__", disregarding the site's
name. -/
def twinPostIntervene (occupied : Int → Bool) (s : AllocState)
    (msg : InterveneMsg) : (AllocState × Option Err) × InterveneMsg :=
  let event_dim := msg.event_dim.getD 0
  let name := "__intervention__"
  let r := scatter occupied s
    [([(name, ({0} : Finset ℕ))], msg.obs), ([(name, ({1} : Finset ℕ))], msg.value)]
    event_dim
  (r.1, { msg with event_dim := some event_dim, value := r.2 })

/-- k sequential interventions under one `MultiWorldCounterfactual` scope:
the allocator state threads through the post-intervene steps (a raised
exception aborts the run). -/
def mwcRun (occupied : Int → Bool) (s : AllocState) :
    List InterveneMsg → AllocState × Option Err
  | [] => (s, none)
  | m :: rest =>
    match mwcPostIntervene occupied s m with
    | ((s1, some e), _) => (s1, some e)
    | ((s1, none), _) => mwcRun occupied s1 rest

/-- k sequential interventions under one `TwinWorldCounterfactual` scope. -/
def twinRun (occupied : Int → Bool) (s : AllocState) :
    List InterveneMsg → AllocState × Option Err
  | [] => (s, none)
  | m :: rest =>
    match twinPostIntervene occupied s m with
    | ((s1, some e), _) => (s1, some e)
    | ((s1, none), _) => twinRun occupied s1 rest

/-- The plates created by k fresh-named multi-world interventions, in
order: each gets the next cursor axis and size 2. -/
def expectedPlates (d : Int) : List InterveneMsg → List Plate
  | [] => []
  | m :: rest => ⟨m.name.getD "", d, 2⟩ :: expectedPlates (d - 1) rest

/-- The classes of the two src modules that participate in attribute
lookup for the effect methods (ancestors living outside src are elided:
they define none of the methods considered here). -/
inductive PyClass where
  | multiWorldCounterfactual
  | twinWorldCounterfactual
  | factual
  | baseCounterfactual
  | indexPlatesMessenger
deriving DecidableEq, Repr

/-- Which classes define `_pyro_get_index_plates` in their own body
(src: `IndexPlatesMessenger` in handlers.py, `BaseCounterfactual` in
ops.py). -/
def definesGetIndexPlates : PyClass → Bool
  | .indexPlatesMessenger => true
  | .baseCounterfactual => true
  | _ => false

/-- Python C3 method resolution order of the src class declarations:
`class MultiWorldCounterfactual(IndexPlatesMessenger, BaseCounterfactual)`
and `class TwinWorldCounterfactual(IndexPlatesMessenger, BaseCounterfactual)`
linearize with `IndexPlatesMessenger` before `BaseCounterfactual`
(declared base order); `class Factual(BaseCounterfactual)`. -/
def mro : PyClass → List PyClass
  | .multiWorldCounterfactual =>
    [.multiWorldCounterfactual, .indexPlatesMessenger, .baseCounterfactual]
  | .twinWorldCounterfactual =>
    [.twinWorldCounterfactual, .indexPlatesMessenger, .baseCounterfactual]
  | .factual => [.factual, .baseCounterfactual]
  | .baseCounterfactual => [.baseCounterfactual]
  | .indexPlatesMessenger => [.indexPlatesMessenger]

/-- Python attribute lookup: the first class in the MRO defining
`_pyro_get_index_plates` provides the implementation. -/
def resolveGetIndexPlates (c : PyClass) : Option PyClass :=
  (mro c).find? definesGetIndexPlates

/-- The frame of a plate (`plate.frame`, a `CondIndepStackFrame` of the
external engine): its name, axis and size. -/
structure Frame where
  name : Name
  dim : Int
  size : Nat
deriving DecidableEq, Repr

def Plate.frame (p : Plate) : Frame := ⟨p.name, p.dim, p.size⟩

/-- The effect message of a "get current plates" query. -/
structure GetPlatesMsg where
  value : Option (List (Name × Frame))
  done : Bool
  stop : Bool
deriving DecidableEq, Repr

/-- `IndexPlatesMessenger._pyro_get_index_plates`: answers with the
name-to-frame mapping of the live plates and sets both `done` and `stop`. -/
def ipmGetIndexPlates (s : AllocState) (msg : GetPlatesMsg) : GetPlatesMsg :=
  { msg with value := some (s.plates.map (fun p => (p.name, p.frame))),
             done := true, stop := true }

/-- `BaseCounterfactual._pyro_get_index_plates`: answers with an empty
mapping and sets both flags. -/
def bcGetIndexPlates (msg : GetPlatesMsg) : GetPlatesMsg :=
  { msg with value := some [], done := true, stop := true }

/-- Processing of a "get current plates" query by an instance of class
`c` with allocator state `s`: dispatches through the MRO to the owning
implementation. -/
def handleGetIndexPlates (c : PyClass) (s : AllocState) (msg : GetPlatesMsg) :
    GetPlatesMsg :=
  match resolveGetIndexPlates c with
  | some .indexPlatesMessenger => ipmGetIndexPlates s msg
  | some .baseCounterfactual => bcGetIndexPlates msg
  | _ => msg

/-- An elementwise boolean mask tensor, indexed abstractly by element
position. -/
def Mask : Type := Nat → Bool

/-- Elementwise `&` of two masks. -/
def Mask.and (a b : Mask) : Mask := fun i => a i && b i

/-- The effect message of a sampling effect as seen by
`DependentMaskMessenger._pyro_sample`: distribution (opaque tag), value,
and the attached mask. -/
@[ext]
structure SampleMsg where
  fn : Nat
  value : Option Int
  mask : Option Mask

/-- `DependentMaskMessenger._pyro_sample`: computes the handler's mask for
the site (`self.get_mask(msg["fn"], msg["value"], device=...)`; the device
computed by `get_sample_msg_device` only selects tensor placement and is
not modelled) and attaches it, ANDing with a previously attached mask:
`msg["mask"] = mask if msg["mask"] is None else msg["mask"] & mask`. -/
def dmmPyroSample (get_mask : Nat → Option Int → Mask) (msg : SampleMsg) :
    SampleMsg :=
  let mask := get_mask msg.fn msg.value
  { msg with mask := some (match msg.mask with
      | none => mask
      | some m => m.and mask) }

/-- An effect handler on the stack, as relevant to the `intervene`
effect: either a `BaseCounterfactual`-derived handler (whose
`_pyro_intervene`, inherited unchanged by `Factual`,
`MultiWorldCounterfactual` and `TwinWorldCounterfactual`, executes
`msg["stop"] = True`), or an unrelated handler with an arbitrary
`_pyro_intervene` effect on the message. -/
structure Handler where
  isCf : Bool
  tweak : InterveneMsg → InterveneMsg

/-- `_process_message` of one handler for the `intervene` effect. -/
def Handler.process (h : Handler) (msg : InterveneMsg) : InterveneMsg :=
  if h.isCf then { msg with stop := true } else h.tweak msg

/-- Modelled from the spec: the dispatch loop of the external effect
engine (spec sections 2 and 9: handlers are invoked innermost-first and
composition is a fold over the active handler chain that terminates as
soon as a handler sets the stop flag). The handler list is ordered
innermost (most recently pushed) first; the result carries the number of
handlers actually invoked. -/
def dispatchIntervene : List Handler → InterveneMsg → InterveneMsg × Nat
  | [], msg => (msg, 0)
  | h :: rest, msg =>
    let msg1 := h.process msg
    if msg1.stop then (msg1, 1)
    else
      let r := dispatchIntervene rest msg1
      (r.1, r.2 + 1)

/- ### Helper lemmas -/

lemma lookupPlate_eq_none_iff (s : AllocState) (n : Name) :
    lookupPlate s n = none ↔ ∀ p ∈ s.plates, p.name ≠ n := by
  simp [lookupPlate, List.find?_eq_none]

lemma max_getD_eq_max' (ix : Finset ℕ) (h : ix.Nonempty) :
    ix.max.getD 0 = ix.max' h := by
  have hc := Finset.coe_max' h
  rw [← hc]
  rfl

lemma addIndicesStep_new (occ : Int → Bool) (s : AllocState) (name : Name)
    (indices : Finset ℕ) (hne : indices.Nonempty)
    (hfresh : lookupPlate s name = none)
    (hocc : occ s.first_available_dim = false) :
    addIndicesStep occ s name indices =
      ({ s with
          plates := s.plates ++
            [⟨name, s.first_available_dim, Nat.max (indices.max' hne + 1) indices.card⟩],
          first_available_dim := s.first_available_dim - 1 }, none) := by
  unfold addIndicesStep
  rw [hfresh]
  simp only [dif_pos hne]
  simp [enterIndexPlate, plateEnter, hocc]

lemma addIndicesStep_existing (occ : Int → Bool) (s : AllocState) (name : Name)
    (indices : Finset ℕ) (hne : indices.Nonempty) (p : Plate)
    (hp : lookupPlate s name = some p) :
    addIndicesStep occ s name indices =
      if 0 ≤ (indices.min' hne : Int) ∧
          (indices.min' hne : Int) ≤ (indices.card : Int) - 1 ∧
          (indices.card : Int) - 1 ≤ (indices.max' hne : Int) ∧
          (indices.max' hne : Int) < (p.size : Int)
      then (s, none)
      else (s, some (.assertionError ("cannot add " ++ name ++ " to " ++ toString p.size))) := by
  unfold addIndicesStep
  rw [hp]
  simp only [dif_pos hne]

lemma addIndices_all_new (occ : Int → Bool) (hocc : ∀ d, occ d = false) :
    ∀ (items : IndexSet) (s : AllocState),
      (∀ i ∈ items, (i.2).Nonempty) →
      ((items.map Prod.fst).Nodup) →
      (∀ i ∈ items, ∀ p ∈ s.plates, p.name ≠ i.1) →
      addIndices occ s items =
        ({ s with
            plates := s.plates ++ expectedNewPlates s.first_available_dim items,
            first_available_dim := s.first_available_dim - items.length }, none)
  | [], s, _, _, _ => by
    cases s
    simp [addIndices, expectedNewPlates]
  | (n, ix) :: rest, s, h1, h2, h3 => by
    have hne : ix.Nonempty := h1 (n, ix) (by simp)
    have hfresh : lookupPlate s n = none := by
      rw [lookupPlate_eq_none_iff]
      intro p hp
      exact h3 (n, ix) (by simp) p hp
    have hstep := addIndicesStep_new occ s n ix hne hfresh (hocc _)
    have hnotin : n ∉ rest.map Prod.fst := by
      have := h2
      simp only [List.map_cons, List.nodup_cons] at this
      exact this.1
    have hIH := addIndices_all_new occ hocc rest
      ({ s with
          plates := s.plates ++
            [⟨n, s.first_available_dim, Nat.max (ix.max' hne + 1) ix.card⟩],
          first_available_dim := s.first_available_dim - 1 })
      (fun i hi => h1 i (List.mem_cons_of_mem _ hi))
      (by
        simp only [List.map_cons, List.nodup_cons] at h2
        exact h2.2)
      (by
        intro i hi p hp
        simp only [List.mem_append, List.mem_singleton] at hp
        rcases hp with hp | hp
        · exact h3 i (List.mem_cons_of_mem _ hi) p hp
        · subst hp
          intro hcontra
          refine hnotin ?_
          rw [show n = i.1 from hcontra]
          exact List.mem_map_of_mem Prod.fst hi)
    show (match addIndicesStep occ s n ix with
      | (s1, some e) => (s1, some e)
      | (s1, none) => addIndices occ s1 rest) = _
    rw [hstep]
    simp only []
    rw [hIH]
    have hsz : Nat.max (ix.max' hne + 1) ix.card =
        Nat.max ((ix.max.getD 0) + 1) ix.card := by
      rw [max_getD_eq_max' ix hne]
    refine Prod.ext ?_ rfl
    simp only [expectedNewPlates, List.length_cons]
    refine AllocState.ext ?_ ?_ rfl rfl
    · simp [hsz, List.append_assoc]
    · simp only
      omega

lemma min_getD_eq_min' (ix : Finset ℕ) (h : ix.Nonempty) :
    ix.min.getD 0 = ix.min' h := by
  have hc := Finset.coe_min' h
  rw [← hc]
  rfl

lemma zero_one_nonempty : (({0, 1} : Finset ℕ)).Nonempty := by decide

lemma zero_one_max' (h : (({0, 1} : Finset ℕ)).Nonempty) :
    ({0, 1} : Finset ℕ).max' h = 1 := by
  rw [← max_getD_eq_max' _ h]
  decide

lemma zero_one_min' (h : (({0, 1} : Finset ℕ)).Nonempty) :
    ({0, 1} : Finset ℕ).min' h = 0 := by
  rw [← min_getD_eq_min' _ h]
  decide

lemma step_zero_one_fresh (occ : Int → Bool) (s : AllocState) (n : Name)
    (hfresh : lookupPlate s n = none)
    (hocc : occ s.first_available_dim = false) :
    addIndicesStep occ s n ({0, 1} : Finset ℕ) =
      ({ s with plates := s.plates ++ [⟨n, s.first_available_dim, 2⟩],
                first_available_dim := s.first_available_dim - 1 }, none) := by
  rw [addIndicesStep_new occ s n _ zero_one_nonempty hfresh hocc]
  rw [zero_one_max']
  norm_num

lemma step_zero_one_existing (occ : Int → Bool) (s : AllocState) (n : Name)
    (p : Plate) (hp : lookupPlate s n = some p) (hsz : p.size = 2) :
    addIndicesStep occ s n ({0, 1} : Finset ℕ) = (s, none) := by
  rw [addIndicesStep_existing occ s n _ zero_one_nonempty p hp]
  rw [if_pos]
  rw [zero_one_min', zero_one_max', hsz]
  norm_num

lemma addIndices_single_zero_one_fresh (occ : Int → Bool) (s : AllocState)
    (n : Name) (hfresh : lookupPlate s n = none)
    (hocc : occ s.first_available_dim = false) :
    addIndices occ s [(n, ({0, 1} : Finset ℕ))] =
      ({ s with plates := s.plates ++ [⟨n, s.first_available_dim, 2⟩],
                first_available_dim := s.first_available_dim - 1 }, none) := by
  show (match addIndicesStep occ s n ({0, 1} : Finset ℕ) with
        | (s1, some e) => (s1, some e)
        | (s1, none) => addIndices occ s1 []) = _
  rw [step_zero_one_fresh occ s n hfresh hocc]
  rfl

lemma addIndices_single_zero_one_existing (occ : Int → Bool) (s : AllocState)
    (n : Name) (p : Plate) (hp : lookupPlate s n = some p) (hsz : p.size = 2) :
    addIndices occ s [(n, ({0, 1} : Finset ℕ))] = (s, none) := by
  show (match addIndicesStep occ s n ({0, 1} : Finset ℕ) with
        | (s1, some e) => (s1, some e)
        | (s1, none) => addIndices occ s1 []) = _
  rw [step_zero_one_existing occ s n p hp hsz]
  rfl

lemma unionIndexSets_two_singletons (n : Name) :
    unionIndexSets [[(n, ({0} : Finset ℕ))], [(n, ({1} : Finset ℕ))]] =
      [(n, ({0, 1} : Finset ℕ))] := by
  have hu : ({0} ∪ {1} : Finset ℕ) = ({0, 1} : Finset ℕ) := by decide
  simp [unionIndexSets, insertIndex, hu]

lemma find?_name_append_singleton (ps : List Plate) (pl : Plate) (n : Name)
    (h : ps.find? (fun p => p.name == n) = none) (hn : pl.name = n) :
    (ps ++ [pl]).find? (fun p => p.name == n) = some pl := by
  rw [List.find?_append, h]
  simp [List.find?, hn]

lemma addIndicesStep_orig (occ : Int → Bool) (s : AllocState) (n : Name)
    (ix : Finset ℕ) : ((addIndicesStep occ s n ix).1).orig_dim = s.orig_dim := by
  unfold addIndicesStep
  split
  · split
    · dsimp only
      split <;> rfl
    · rfl
  · split
    · split <;> rfl
    · rfl

lemma addIndices_orig (occ : Int → Bool) :
    ∀ (items : IndexSet) (s : AllocState),
      ((addIndices occ s items).1).orig_dim = s.orig_dim
  | [], s => rfl
  | (n, ix) :: rest, s => by
    show ((match addIndicesStep occ s n ix with
          | (s1, some e) => (s1, some e)
          | (s1, none) => addIndices occ s1 rest).1).orig_dim = s.orig_dim
    have ho := addIndicesStep_orig occ s n ix
    rcases hstep : addIndicesStep occ s n ix with ⟨s1, e⟩
    rw [hstep] at ho
    cases e with
    | none =>
      simp only []
      rw [addIndices_orig occ rest s1]
      exact ho
    | some err => exact ho

lemma exitLoop_spec : ∀ (names : List Name) (exc : Option ExcInfo) (s : AllocState),
    (exitLoop exc s names).2 = names
    ∧ (exitLoop exc s names).1.plates =
        s.plates.filter (fun p => decide (p.name ∉ names))
    ∧ (exitLoop exc s names).1.first_available_dim = s.first_available_dim
    ∧ (exitLoop exc s names).1.orig_dim = s.orig_dim
    ∧ (exitLoop exc s names).1.inStack = s.inStack
  | [], exc, s => by
    refine ⟨rfl, ?_, rfl, rfl, rfl⟩
    simp [exitLoop]
  | n :: rest, exc, s => by
    have hIH := exitLoop_spec rest exc
      { s with plates := s.plates.filter (fun p => decide (p.name ≠ n)) }
    refine ⟨?_, ?_, ?_, ?_, ?_⟩
    · show n :: (exitLoop exc _ rest).2 = n :: rest
      rw [hIH.1]
    · show (exitLoop exc _ rest).1.plates = _
      rw [hIH.2.1]
      simp only [List.filter_filter]
      refine List.filter_congr ?_
      intro p _
      by_cases h1 : p.name = n <;> by_cases h2 : p.name ∈ rest <;>
        simp [List.mem_cons, h1, h2]
    · exact hIH.2.2.1
    · exact hIH.2.2.2.1
    · exact hIH.2.2.2.2

/-- The axis name chosen by `MultiWorldCounterfactual._pyro_post_intervene`
(the first three lines of its body). -/
def mwcName (s : AllocState) (m : InterveneMsg) : Name :=
  let name0 := match m.name with
    | none => "__intervention__"
    | some n => n
  if (lookupPlate s name0).isSome then
    name0 ++ "_" ++ toString s.first_available_dim
  else name0

lemma mwcPostIntervene_eq (occ : Int → Bool) (s : AllocState) (m : InterveneMsg) :
    mwcPostIntervene occ s m =
      (addIndices occ s [(mwcName s m, ({0, 1} : Finset ℕ))],
       { m with name := some (mwcName s m),
                event_dim := some (m.event_dim.getD 0),
                value := IValue.scattered
                  [([(mwcName s m, ({0} : Finset ℕ))], m.obs),
                   ([(mwcName s m, ({1} : Finset ℕ))], m.value)]
                  (m.event_dim.getD 0) }) := by
  simp only [mwcPostIntervene, scatter, mwcName, List.map_cons, List.map_nil,
    unionIndexSets_two_singletons]

lemma twinPostIntervene_eq (occ : Int → Bool) (s : AllocState) (m : InterveneMsg) :
    twinPostIntervene occ s m =
      (addIndices occ s [("__intervention__", ({0, 1} : Finset ℕ))],
       { m with event_dim := some (m.event_dim.getD 0),
                value := IValue.scattered
                  [([("__intervention__", ({0} : Finset ℕ))], m.obs),
                   ([("__intervention__", ({1} : Finset ℕ))], m.value)]
                  (m.event_dim.getD 0) }) := by
  simp only [twinPostIntervene, scatter, List.map_cons, List.map_nil,
    unionIndexSets_two_singletons]

lemma mwcName_of_fresh (s : AllocState) (m : InterveneMsg) (n : Name)
    (hn : m.name = some n) (hfresh : lookupPlate s n = none) :
    mwcName s m = n := by
  unfold mwcName
  rw [hn]
  simp [hfresh]

lemma mwcRun_all_fresh (occ : Int → Bool) (hocc : ∀ d, occ d = false) :
    ∀ (msgs : List InterveneMsg) (s : AllocState),
      (∀ m ∈ msgs, m.name ≠ none) →
      ((msgs.filterMap InterveneMsg.name).Nodup) →
      (∀ m ∈ msgs, ∀ p ∈ s.plates, some p.name ≠ m.name) →
      mwcRun occ s msgs =
        ({ s with
            plates := s.plates ++ expectedPlates s.first_available_dim msgs,
            first_available_dim := s.first_available_dim - msgs.length }, none)
  | [], s, _, _, _ => by
    cases s
    simp [mwcRun, expectedPlates]
  | m :: rest, s, h1, h2, h3 => by
    rcases hn : m.name with _ | n
    · exact absurd hn (h1 m (by simp))
    have hfresh : lookupPlate s n = none := by
      rw [lookupPlate_eq_none_iff]
      intro p hp hcontra
      exact h3 m (by simp) p hp (by rw [hcontra, hn])
    have hname := mwcName_of_fresh s m n hn hfresh
    have hstate := addIndices_single_zero_one_fresh occ s n hfresh (hocc _)
    have hpi := mwcPostIntervene_eq occ s m
    rw [hname, hstate] at hpi
    have hnotin : n ∉ rest.filterMap InterveneMsg.name := by
      have h2' := h2
      rw [show (m :: rest).filterMap InterveneMsg.name =
        n :: rest.filterMap InterveneMsg.name from by
          simp [List.filterMap_cons, hn]] at h2'
      exact (List.nodup_cons.mp h2').1
    have hIH := mwcRun_all_fresh occ hocc rest
      ({ s with plates := s.plates ++ [⟨n, s.first_available_dim, 2⟩],
                first_available_dim := s.first_available_dim - 1 })
      (fun m2 hm2 => h1 m2 (List.mem_cons_of_mem _ hm2))
      (by
        have h2' := h2
        rw [show (m :: rest).filterMap InterveneMsg.name =
          n :: rest.filterMap InterveneMsg.name from by
            simp [List.filterMap_cons, hn]] at h2'
        exact (List.nodup_cons.mp h2').2)
      (by
        intro m2 hm2 p hp
        simp only [List.mem_append, List.mem_singleton] at hp
        rcases hp with hp | hp
        · exact h3 m2 (List.mem_cons_of_mem _ hm2) p hp
        · subst hp
          rcases hn2 : m2.name with _ | n2
          · exact absurd hn2 (h1 m2 (List.mem_cons_of_mem _ hm2))
          · simp only [ne_eq, Option.some.injEq]
            intro hcontra
            refine hnotin ?_
            rw [show (n : Name) = n2 from hcontra]
            exact List.mem_filterMap.mpr ⟨m2, hm2, hn2⟩)
    show (match mwcPostIntervene occ s m with
      | ((s1, some e), _) => (s1, some e)
      | ((s1, none), _) => mwcRun occ s1 rest) = _
    rw [hpi]
    simp only []
    rw [hIH]
    refine Prod.ext ?_ rfl
    refine AllocState.ext ?_ ?_ rfl rfl
    · simp only [expectedPlates, hn, Option.getD_some, List.length_cons]
      simp [List.append_assoc]
    · simp only [List.length_cons]
      omega

lemma twinRun_stable (occ : Int → Bool) :
    ∀ (msgs : List InterveneMsg) (s : AllocState) (p : Plate),
      lookupPlate s "__intervention__" = some p → p.size = 2 →
      twinRun occ s msgs = (s, none)
  | [], s, p, _, _ => rfl
  | m :: rest, s, p, hp, hsz => by
    have hstate := addIndices_single_zero_one_existing occ s "__intervention__" p hp hsz
    have hpi := twinPostIntervene_eq occ s m
    rw [hstate] at hpi
    show (match twinPostIntervene occ s m with
      | ((s1, some e), _) => (s1, some e)
      | ((s1, none), _) => twinRun occ s1 rest) = _
    rw [hpi]
    simp only []
    exact twinRun_stable occ rest s p hp hsz

lemma expectedPlates_length : ∀ (msgs : List InterveneMsg) (d : Int),
    (expectedPlates d msgs).length = msgs.length
  | [], _ => rfl
  | _ :: rest, d => by
    simp [expectedPlates, expectedPlates_length rest (d - 1)]

lemma expectedPlates_size : ∀ (msgs : List InterveneMsg) (d : Int),
    ∀ p ∈ expectedPlates d msgs, p.size = 2
  | [], _, p, hp => absurd hp (List.not_mem_nil p)
  | m :: rest, d, p, hp => by
    rcases List.mem_cons.mp hp with h | h
    · rw [h]
    · exact expectedPlates_size rest (d - 1) p h

lemma expectedPlates_dim_le : ∀ (msgs : List InterveneMsg) (d : Int),
    ∀ p ∈ expectedPlates d msgs, p.dim ≤ d
  | [], _, p, hp => absurd hp (List.not_mem_nil p)
  | m :: rest, d, p, hp => by
    rcases List.mem_cons.mp hp with h | h
    · rw [h]
    · have := expectedPlates_dim_le rest (d - 1) p h
      omega

lemma expectedPlates_dims_nodup : ∀ (msgs : List InterveneMsg) (d : Int),
    ((expectedPlates d msgs).map Plate.dim).Nodup
  | [], _ => List.nodup_nil
  | m :: rest, d => by
    simp only [expectedPlates, List.map_cons, List.nodup_cons]
    refine ⟨?_, expectedPlates_dims_nodup rest (d - 1)⟩
    intro hmem
    rcases List.mem_map.mp hmem with ⟨p, hp, hd⟩
    have := expectedPlates_dim_le rest (d - 1) p hp
    omega

lemma expectedPlates_sizes_replicate : ∀ (msgs : List InterveneMsg) (d : Int),
    (expectedPlates d msgs).map Plate.size = List.replicate msgs.length 2
  | [], _ => rfl
  | m :: rest, d => by
    simp [expectedPlates, List.replicate_succ,
      expectedPlates_sizes_replicate rest (d - 1)]

/- ### Claim theorems -/

/-- C1: `add_indices` with an IndexSet of new names registers, for each
new name in turn, a plate of size `max(max(indices)+1, len(indices))` at
the current cursor axis and decrements the cursor by one per name. -/
theorem add_indices_new_name_spec :
    (∀ (occ : Int → Bool) (s : AllocState) (name : Name) (indices : Finset ℕ)
        (hne : indices.Nonempty),
        lookupPlate s name = none →
        occ s.first_available_dim = false →
        addIndicesStep occ s name indices =
          ({ s with
              plates := s.plates ++
                [⟨name, s.first_available_dim,
                  Nat.max (indices.max' hne + 1) indices.card⟩],
              first_available_dim := s.first_available_dim - 1 }, none))
  ∧ (∀ (occ : Int → Bool) (s : AllocState) (items : IndexSet),
        (∀ d, occ d = false) →
        (∀ i ∈ items, (i.2).Nonempty) →
        ((items.map Prod.fst).Nodup) →
        (∀ i ∈ items, lookupPlate s i.1 = none) →
        addIndices occ s items =
          ({ s with
              plates := s.plates ++ expectedNewPlates s.first_available_dim items,
              first_available_dim := s.first_available_dim - items.length },
           none)) := by
  constructor
  · exact fun occ s name indices hne hfresh hocc =>
      addIndicesStep_new occ s name indices hne hfresh hocc
  · intro occ s items hocc h1 h2 h3
    refine addIndices_all_new occ hocc items s h1 h2 ?_
    intro i hi p hp hcontra
    exact (lookupPlate_eq_none_iff s i.1).mp (h3 i hi) p hp hcontra

/-- Witness for C1 at a concrete input: two new names, sizes
`max(2+1, 2) = 3` and `max(1+1, 1) = 2`, axes -5 and -6, cursor -7. -/
theorem add_indices_new_name_witness :
    addIndices (fun _ => false) ⟨[], -5, -5, true⟩ [("a", {0, 2}), ("b", {1})] =
      (⟨[⟨"a", -5, 3⟩, ⟨"b", -6, 2⟩], -7, -5, true⟩, none) := by
  have h := add_indices_new_name_spec.2 (fun _ => false) ⟨[], -5, -5, true⟩
    [("a", {0, 2}), ("b", {1})] (fun _ => rfl) (by decide) (by decide) (by decide)
  rw [h]
  decide

/-- C2: a multi-world intervene scatters observed/intervened onto indices
0/1 of an axis named by the site (auto-named "__intervention__" when
unnamed, suffixed with the current cursor value on collision with an
allocated axis), registering the axis through the allocator; k sequential
interventions with distinct fresh names allocate k distinct axes, each of
size 2, whose sizes multiply to 2^k total worlds. -/
theorem multi_world_intervene_spec :
    (∀ (occ : Int → Bool) (s : AllocState) (m : InterveneMsg), ∃ n : Name,
        (mwcPostIntervene occ s m).2.name = some n
        ∧ (mwcPostIntervene occ s m).2.value =
            IValue.scattered
              [([(n, ({0} : Finset ℕ))], m.obs), ([(n, ({1} : Finset ℕ))], m.value)]
              (m.event_dim.getD 0)
        ∧ (mwcPostIntervene occ s m).1 =
            addIndices occ s [(n, ({0, 1} : Finset ℕ))]
        ∧ (m.name = none → lookupPlate s "__intervention__" = none →
            n = "__intervention__")
        ∧ (m.name = none → ∀ p, lookupPlate s "__intervention__" = some p →
            n = "__intervention__" ++ "_" ++ toString s.first_available_dim)
        ∧ (∀ a, m.name = some a → lookupPlate s a = none → n = a)
        ∧ (∀ a, m.name = some a → ∀ p, lookupPlate s a = some p →
            n = a ++ "_" ++ toString s.first_available_dim))
  ∧ (∀ (occ : Int → Bool) (s : AllocState) (msgs : List InterveneMsg),
        (∀ d, occ d = false) →
        (∀ m ∈ msgs, m.name ≠ none) →
        ((msgs.filterMap InterveneMsg.name).Nodup) →
        (∀ m ∈ msgs, ∀ p ∈ s.plates, some p.name ≠ m.name) →
        (mwcRun occ s msgs).2 = none
        ∧ (mwcRun occ s msgs).1.plates =
            s.plates ++ expectedPlates s.first_available_dim msgs
        ∧ (mwcRun occ s msgs).1.first_available_dim =
            s.first_available_dim - msgs.length
        ∧ (expectedPlates s.first_available_dim msgs).length = msgs.length
        ∧ (∀ p ∈ expectedPlates s.first_available_dim msgs, p.size = 2)
        ∧ ((expectedPlates s.first_available_dim msgs).map Plate.dim).Nodup
        ∧ ((expectedPlates s.first_available_dim msgs).map Plate.size).prod =
            2 ^ msgs.length) := by
  constructor
  · intro occ s m
    refine ⟨mwcName s m, ?_, ?_, ?_, ?_, ?_, ?_, ?_⟩
    · rw [mwcPostIntervene_eq]
    · rw [mwcPostIntervene_eq]
    · rw [mwcPostIntervene_eq]
    · intro hn hfresh
      unfold mwcName
      rw [hn]
      simp [hfresh]
    · intro hn p hp
      unfold mwcName
      rw [hn]
      simp [hp]
    · intro a hn hfresh
      unfold mwcName
      rw [hn]
      simp [hfresh]
    · intro a hn p hp
      unfold mwcName
      rw [hn]
      simp [hp]
  · intro occ s msgs hocc h1 h2 h3
    have hr := mwcRun_all_fresh occ hocc msgs s h1 h2 h3
    rw [hr]
    refine ⟨rfl, rfl, rfl, expectedPlates_length msgs _,
      expectedPlates_size msgs _, expectedPlates_dims_nodup msgs _, ?_⟩
    rw [expectedPlates_sizes_replicate msgs _]
    simp [List.prod_replicate]

/-- Witness for C2 at a concrete input: two interventions named "x" and
"y" from a fresh allocator at cursor -5 yield plates of size 2 at axes -5
and -6 and final cursor -7. -/
theorem multi_world_intervene_witness :
    (mwcRun (fun _ => false) ⟨[], -5, -5, true⟩
        [⟨some "x", .base 0, .base 1, none, false, false⟩,
         ⟨some "y", .base 0, .base 1, none, false, false⟩]).1.plates =
      [⟨"x", -5, 2⟩, ⟨"y", -6, 2⟩]
    ∧ (mwcRun (fun _ => false) ⟨[], -5, -5, true⟩
        [⟨some "x", .base 0, .base 1, none, false, false⟩,
         ⟨some "y", .base 0, .base 1, none, false, false⟩]).1.first_available_dim
        = -7
    ∧ (mwcRun (fun _ => false) ⟨[], -5, -5, true⟩
        [⟨some "x", .base 0, .base 1, none, false, false⟩,
         ⟨some "y", .base 0, .base 1, none, false, false⟩]).2 = none := by
  have h := multi_world_intervene_spec.2 (fun _ => false) ⟨[], -5, -5, true⟩
    [⟨some "x", .base 0, .base 1, none, false, false⟩,
     ⟨some "y", .base 0, .base 1, none, false, false⟩]
    (fun _ => rfl) (by simp) (by simp) (by simp)
  refine ⟨?_, ?_, h.1⟩
  · rw [h.2.1]
    decide
  · rw [h.2.2.1]
    decide

/-- C3: a twin-world intervene scatters onto the fixed axis name
"__intervention__" regardless of the site's name, and any positive number
of interventions under one scope allocates exactly one axis of size 2. -/
theorem twin_world_intervene_spec :
    (∀ (occ : Int → Bool) (s : AllocState) (m : InterveneMsg),
        (twinPostIntervene occ s m).2.value =
          IValue.scattered
            [([("__intervention__", ({0} : Finset ℕ))], m.obs),
             ([("__intervention__", ({1} : Finset ℕ))], m.value)]
            (m.event_dim.getD 0)
        ∧ (twinPostIntervene occ s m).2.name = m.name
        ∧ (twinPostIntervene occ s m).1 =
            addIndices occ s [("__intervention__", ({0, 1} : Finset ℕ))])
  ∧ (∀ (occ : Int → Bool) (s : AllocState) (msgs : List InterveneMsg),
        (∀ d, occ d = false) →
        lookupPlate s "__intervention__" = none →
        msgs ≠ [] →
        (twinRun occ s msgs).2 = none
        ∧ (twinRun occ s msgs).1.plates =
            s.plates ++ [⟨"__intervention__", s.first_available_dim, 2⟩]
        ∧ (twinRun occ s msgs).1.first_available_dim =
            s.first_available_dim - 1) := by
  constructor
  · intro occ s m
    refine ⟨?_, ?_, ?_⟩ <;> rw [twinPostIntervene_eq]
  · intro occ s msgs hocc hfresh hne
    rcases msgs with _ | ⟨m, rest⟩
    · exact absurd rfl hne
    have hstate := addIndices_single_zero_one_fresh occ s "__intervention__"
      hfresh (hocc _)
    have hpi := twinPostIntervene_eq occ s m
    rw [hstate] at hpi
    have hlk : lookupPlate
        ({ s with
            plates := s.plates ++ [⟨"__intervention__", s.first_available_dim, 2⟩],
            first_available_dim := s.first_available_dim - 1 } : AllocState)
        "__intervention__" = some ⟨"__intervention__", s.first_available_dim, 2⟩ :=
      find?_name_append_singleton s.plates _ _ hfresh rfl
    have hrun := twinRun_stable occ rest
      ({ s with
          plates := s.plates ++ [⟨"__intervention__", s.first_available_dim, 2⟩],
          first_available_dim := s.first_available_dim - 1 })
      ⟨"__intervention__", s.first_available_dim, 2⟩ hlk rfl
    have : twinRun occ s (m :: rest) =
        ({ s with
            plates := s.plates ++ [⟨"__intervention__", s.first_available_dim, 2⟩],
            first_available_dim := s.first_available_dim - 1 }, none) := by
      show (match twinPostIntervene occ s m with
        | ((s1, some e), _) => (s1, some e)
        | ((s1, none), _) => twinRun occ s1 rest) = _
      rw [hpi]
      simp only []
      exact hrun
    rw [this]
    exact ⟨rfl, rfl, rfl⟩

/-- Witness for C3 at a concrete input: three interventions with three
different site names still allocate the single axis
("__intervention__", -5, 2) and decrement the cursor once. -/
theorem twin_world_intervene_witness :
    (twinRun (fun _ => false) ⟨[], -5, -5, true⟩
        [⟨some "x", .base 0, .base 1, none, false, false⟩,
         ⟨none, .base 0, .base 1, none, false, false⟩,
         ⟨some "y", .base 0, .base 1, none, false, false⟩]).1.plates =
      [⟨"__intervention__", -5, 2⟩]
    ∧ (twinRun (fun _ => false) ⟨[], -5, -5, true⟩
        [⟨some "x", .base 0, .base 1, none, false, false⟩,
         ⟨none, .base 0, .base 1, none, false, false⟩,
         ⟨some "y", .base 0, .base 1, none, false, false⟩]).1.first_available_dim
        = -6
    ∧ (twinRun (fun _ => false) ⟨[], -5, -5, true⟩
        [⟨some "x", .base 0, .base 1, none, false, false⟩,
         ⟨none, .base 0, .base 1, none, false, false⟩,
         ⟨some "y", .base 0, .base 1, none, false, false⟩]).2 = none := by
  have h := twin_world_intervene_spec.2 (fun _ => false) ⟨[], -5, -5, true⟩
    [⟨some "x", .base 0, .base 1, none, false, false⟩,
     ⟨none, .base 0, .base 1, none, false, false⟩,
     ⟨some "y", .base 0, .base 1, none, false, false⟩]
    (fun _ => rfl) rfl (by simp)
  refine ⟨?_, ?_, h.1⟩
  · rw [h.2.1]
    decide
  · rw [h.2.2]
    decide

/-- C4 counterexample: calling `add_indices` with name "a" (live plate of
size 3) and indices {5} violates the range condition and fails, but with an
AssertionError (Python `assert`), which is not a ValueError-class error as
the claim states. -/
theorem add_indices_range_counterexample :
    (addIndicesStep (fun _ => false) ⟨[⟨"a", -5, 3⟩], -6, -5, true⟩ "a"
        ({5} : Finset ℕ)).2 = some (Err.assertionError "cannot add a to 3")
    ∧ Err.isValueError (Err.assertionError "cannot add a to 3") = false := by
  constructor
  · decide
  · rfl

/-- C4 (amended): for a name with a live plate of size s, indices that
violate `0 ≤ min ≤ len-1 ≤ max < s` make the call fail with an
AssertionError (not a ValueError-class error) and leave the state — hence
the plate's size — unchanged; indices satisfying the condition make the
call succeed without modifying the state. -/
theorem add_indices_range_spec :
    ∀ (occ : Int → Bool) (s : AllocState) (name : Name) (indices : Finset ℕ)
      (hne : indices.Nonempty) (p : Plate),
      lookupPlate s name = some p →
      ((¬ (0 ≤ (indices.min' hne : Int) ∧
            (indices.min' hne : Int) ≤ (indices.card : Int) - 1 ∧
            (indices.card : Int) - 1 ≤ (indices.max' hne : Int) ∧
            (indices.max' hne : Int) < (p.size : Int)) →
          addIndicesStep occ s name indices =
            (s, some (.assertionError
              ("cannot add " ++ name ++ " to " ++ toString p.size))))
        ∧ ((0 ≤ (indices.min' hne : Int) ∧
            (indices.min' hne : Int) ≤ (indices.card : Int) - 1 ∧
            (indices.card : Int) - 1 ≤ (indices.max' hne : Int) ∧
            (indices.max' hne : Int) < (p.size : Int)) →
          addIndicesStep occ s name indices = (s, none))) := by
  intro occ s name indices hne p hp
  rw [addIndicesStep_existing occ s name indices hne p hp]
  constructor
  · intro hviol
    rw [if_neg hviol]
  · intro hok
    rw [if_pos hok]

/-- Witness for C4 at concrete inputs: the violating call {5} against a
size-3 plate fails by assertion with the state unchanged; the valid call
{0, 2} succeeds with the state unchanged. -/
theorem add_indices_range_witness :
    addIndicesStep (fun _ => false) ⟨[⟨"a", -5, 3⟩], -6, -5, true⟩ "a"
        ({5} : Finset ℕ) =
      (⟨[⟨"a", -5, 3⟩], -6, -5, true⟩,
       some (.assertionError "cannot add a to 3"))
    ∧ addIndicesStep (fun _ => false) ⟨[⟨"a", -5, 3⟩], -6, -5, true⟩ "a"
        ({0, 2} : Finset ℕ) =
      (⟨[⟨"a", -5, 3⟩], -6, -5, true⟩, none) := by
  constructor
  · exact (add_indices_range_spec (fun _ => false) ⟨[⟨"a", -5, 3⟩], -6, -5, true⟩
      "a" ({5} : Finset ℕ) (by decide) ⟨"a", -5, 3⟩ (by decide)).1 (by decide)
  · exact (add_indices_range_spec (fun _ => false) ⟨[⟨"a", -5, 3⟩], -6, -5, true⟩
      "a" ({0, 2} : Finset ℕ) (by decide) ⟨"a", -5, 3⟩ (by decide)).2 (by decide)

/-- C5: on every exit of an `IndexPlatesMessenger` scope — the `__exit__`
body runs identically whether or not an exception is propagating — the
plates are released in exact reverse creation order, the registry ends
empty, and the cursor is restored to the initial user-supplied value
(which `__init__` recorded and which `add_indices` never changes). -/
theorem exit_scope_spec :
    ∀ (s : AllocState) (exc : Option ExcInfo),
      (exitScope s exc).2 = (s.plates.map Plate.name).reverse
      ∧ (exitScope s exc).1.plates = []
      ∧ (exitScope s exc).1.first_available_dim = s.orig_dim
      ∧ (exitScope s exc).1.orig_dim = s.orig_dim
      ∧ (∀ d : Int, d < 0 →
          initMessenger (some d) = .ok ⟨[], d, d, false⟩)
      ∧ (∀ (occ : Int → Bool) (items : IndexSet),
          ((addIndices occ s items).1).orig_dim = s.orig_dim) := by
  intro s exc
  have hl := exitLoop_spec ((s.plates.map Plate.name).reverse) exc s
  refine ⟨hl.1, ?_, rfl, hl.2.2.2.1, ?_, fun occ items => addIndices_orig occ items s⟩
  · show (exitLoop exc s ((s.plates.map Plate.name).reverse)).1.plates = []
    rw [hl.2.1]
    rw [List.filter_eq_nil_iff]
    intro p hp
    simp only [decide_eq_true_eq, not_not]
    exact List.mem_reverse.mpr (List.mem_map_of_mem Plate.name hp)
  · intro d hd
    simp [initMessenger, hd]

/-- Witness for C5 at a concrete input: a scope holding plates created in
order "a", "b" exits through a propagating exception releasing "b" then
"a", ending with an empty registry and the cursor back at -5, the value
recorded by `__init__`. -/
theorem exit_scope_witness :
    (exitScope ⟨[⟨"a", -5, 3⟩, ⟨"b", -6, 2⟩], -7, -5, true⟩ (some ⟨true⟩)).2 =
      ["b", "a"]
    ∧ (exitScope ⟨[⟨"a", -5, 3⟩, ⟨"b", -6, 2⟩], -7, -5, true⟩ (some ⟨true⟩)).1.plates
        = []
    ∧ (exitScope ⟨[⟨"a", -5, 3⟩, ⟨"b", -6, 2⟩], -7, -5, true⟩
        (some ⟨true⟩)).1.first_available_dim = -5
    ∧ initMessenger (some (-5)) = .ok ⟨[], -5, -5, false⟩ := by
  have h := exit_scope_spec ⟨[⟨"a", -5, 3⟩, ⟨"b", -6, 2⟩], -7, -5, true⟩
    (some ⟨true⟩)
  refine ⟨?_, h.2.1, h.2.2.1, h.2.2.2.2.1 (-5) (by decide)⟩
  rw [h.1]
  decide

/-- C6: when the cursor axis is already occupied elsewhere in the program,
allocating a new plate fails with a ValueError carrying the advice to set
a value less than `_orig_dim` for first_available_dim, the state is left
unchanged, and no other axis is tried. -/
theorem allocation_collision_spec :
    ∀ (occ : Int → Bool) (s : AllocState) (name : Name) (indices : Finset ℕ),
      lookupPlate s name = none →
      indices.Nonempty →
      occ s.first_available_dim = true →
      addIndicesStep occ s name indices =
        (s, some (.valueError (collideAdviceMsg s)))
      ∧ Err.isValueError (.valueError (collideAdviceMsg s)) = true
      ∧ (∃ head tail, collideAdviceMsg s =
          head ++ ("Try setting a value less than " ++ toString s.orig_dim) ++ tail) := by
  intro occ s name indices hfresh hne hocc
  refine ⟨?_, rfl,
    ⟨collideAdviceHead s,
     " for first_available_dim that is less than the leftmost (most negative) plate dimension in your model.",
     rfl⟩⟩
  unfold addIndicesStep
  rw [hfresh]
  simp only [dif_pos hne]
  simp [enterIndexPlate, plateEnter, hocc]

/-- Witness for C6 at a concrete input: with axis -5 occupied externally,
allocating "n" from cursor -5 fails with the advising ValueError and the
state unchanged. -/
theorem allocation_collision_witness :
    addIndicesStep (fun d => decide (d = -5)) ⟨[], -5, -5, true⟩ "n"
        ({0} : Finset ℕ) =
      (⟨[], -5, -5, true⟩,
       some (.valueError (collideAdviceMsg ⟨[], -5, -5, true⟩))) :=
  (allocation_collision_spec (fun d => decide (d = -5)) ⟨[], -5, -5, true⟩ "n"
    ({0} : Finset ℕ) rfl (by decide) (by decide)).1

/-- C7 counterexample: an allocator whose scope is already active (it is
installed on the handler stack) but which has not yet allocated any plate
passes both freshness assertions, so the reentrant entry succeeds instead
of failing with a fatal assertion; the second conjunct shows the active
state arises from a first entry. -/
theorem enter_scope_counterexample :
    enterScope ⟨[], -5, -5, true⟩ = .ok ⟨[], -5, -5, true⟩
    ∧ enterScope ⟨[], -5, -5, false⟩ = .ok ⟨[], -5, -5, true⟩ := by
  constructor
  · rfl
  · rfl

/-- C7 (amended): entering an `IndexPlatesMessenger` scope succeeds
exactly when the allocator is fresh (no live plates, cursor at the initial
value); reentrant entry fails with a fatal assertion whenever a plate is
live or the cursor has moved, but the allocator's own assertions check
freshness, not activity, so a reentrant entry before any allocation is not
detected by them. -/
theorem enter_scope_spec :
    ∀ s : AllocState,
      ((∃ t, enterScope s = .ok t) ↔
        (s.plates = [] ∧ s.first_available_dim = s.orig_dim))
      ∧ (s.plates ≠ [] →
          enterScope s = .error (.assertionError "plates not empty"))
      ∧ (s.plates = [] → s.first_available_dim ≠ s.orig_dim →
          enterScope s = .error (.assertionError "first_available_dim moved")) := by
  intro s
  unfold enterScope
  by_cases h1 : s.plates = [] <;> by_cases h2 : s.first_available_dim = s.orig_dim <;>
    simp [h1, h2]

/-- Witness for C7 at a concrete input: a state with a live plate fails
the entry assertion. -/
theorem enter_scope_witness :
    enterScope ⟨[⟨"a", -5, 3⟩], -6, -5, true⟩ =
      .error (.assertionError "plates not empty") :=
  (enter_scope_spec ⟨[⟨"a", -5, 3⟩], -6, -5, true⟩).2.1 (by decide)

/-- C8: for both `MultiWorldCounterfactual` and `TwinWorldCounterfactual`
the MRO resolves `_pyro_get_index_plates` to the `IndexPlatesMessenger`
implementation (taking precedence over `BaseCounterfactual`, which would
answer with an empty mapping); the query is answered with the handler's
own name-to-frame registry and marked done and stopped, so it is not
propagated further up the stack. -/
theorem get_index_plates_resolution_spec :
    ∀ (s : AllocState) (msg : GetPlatesMsg),
      resolveGetIndexPlates .multiWorldCounterfactual = some .indexPlatesMessenger
      ∧ resolveGetIndexPlates .twinWorldCounterfactual = some .indexPlatesMessenger
      ∧ handleGetIndexPlates .multiWorldCounterfactual s msg =
          { msg with value := some (s.plates.map (fun p => (p.name, p.frame))),
                     done := true, stop := true }
      ∧ handleGetIndexPlates .twinWorldCounterfactual s msg =
          { msg with value := some (s.plates.map (fun p => (p.name, p.frame))),
                     done := true, stop := true }
      ∧ (handleGetIndexPlates .multiWorldCounterfactual s msg).stop = true
      ∧ (handleGetIndexPlates .multiWorldCounterfactual s msg).done = true
      ∧ handleGetIndexPlates .baseCounterfactual s msg =
          { msg with value := some [], done := true, stop := true } :=
  fun _ _ => ⟨rfl, rfl, rfl, rfl, rfl, rfl, rfl⟩

/-- C9: `DependentMaskMessenger._pyro_sample` attaches the computed mask
when none is attached, and otherwise attaches the elementwise AND of the
existing mask with the computed one — conjunctive composition that can
only restrict, never overwrite, an outer handler's mask. -/
theorem dependent_mask_sample_spec :
    ∀ (gm : Nat → Option Int → Mask) (msg : SampleMsg),
      (msg.mask = none →
        (dmmPyroSample gm msg).mask = some (gm msg.fn msg.value))
      ∧ (∀ m, msg.mask = some m →
          (dmmPyroSample gm msg).mask = some (Mask.and m (gm msg.fn msg.value))
          ∧ (∀ i, Mask.and m (gm msg.fn msg.value) i =
              (m i && gm msg.fn msg.value i))
          ∧ (∀ i, Mask.and m (gm msg.fn msg.value) i = true → m i = true)) := by
  intro gm msg
  constructor
  · intro h
    simp [dmmPyroSample, h]
  · intro m h
    refine ⟨by simp [dmmPyroSample, h], fun i => rfl, fun i hi => ?_⟩
    exact (Bool.and_eq_true _ _).mp hi |>.1

/-- Witness for C9 at a concrete input: a previously attached mask is
ANDed with the computed one, not overwritten. -/
theorem dependent_mask_sample_witness :
    (dmmPyroSample (fun _ _ _ => true)
        ⟨0, none, some (fun i => decide (i = 0))⟩).mask =
      some (Mask.and (fun i => decide (i = 0)) (fun _ => true)) :=
  ((dependent_mask_sample_spec (fun _ _ _ => true)
      ⟨0, none, some (fun i => decide (i = 0))⟩).2
    (fun i => decide (i = 0)) rfl).1

/-- C10: an intervene effect dispatched innermost-first through a stack
whose earlier (inner) non-counterfactual handlers do not touch the stop
flag is stopped at the first `BaseCounterfactual`-derived handler: exactly
the handlers up to and including it run, and the result is independent of
every handler pushed earlier (outer) on the stack. -/
theorem intervene_stop_spec :
    ∀ (pre : List Handler) (cf : Handler) (post : List Handler)
      (msg : InterveneMsg),
      cf.isCf = true →
      (∀ h ∈ pre, h.isCf = false ∧ ∀ m2 : InterveneMsg, (h.tweak m2).stop = m2.stop) →
      msg.stop = false →
      dispatchIntervene (pre ++ cf :: post) msg =
        ({ pre.foldl (fun m2 h => h.process m2) msg with stop := true },
         pre.length + 1)
      ∧ (∀ post2, dispatchIntervene (pre ++ cf :: post) msg =
          dispatchIntervene (pre ++ cf :: post2) msg)
  | [], cf, post, msg, hcf, _, hstop => by
    have hp : cf.process msg = { msg with stop := true } := by
      simp [Handler.process, hcf]
    constructor
    · simp [dispatchIntervene, hp]
    · intro post2
      simp [dispatchIntervene, hp]
  | h :: rest, cf, post, msg, hcf, hpre, hstop => by
    have hh := hpre h (by simp)
    have hpm : h.process msg = h.tweak msg := by
      simp [Handler.process, hh.1]
    have hstop1 : (h.tweak msg).stop = false := by
      rw [hh.2 msg, hstop]
    have hIH := intervene_stop_spec rest cf post (h.tweak msg) hcf
      (fun h2 hh2 => hpre h2 (List.mem_cons_of_mem _ hh2)) hstop1
    constructor
    · show (let msg1 := h.process msg;
        if msg1.stop then (msg1, 1)
        else
          let r := dispatchIntervene (rest ++ cf :: post) msg1
          (r.1, r.2 + 1)) = _
      rw [hpm]
      simp only [hstop1, if_false, Bool.false_eq_true]
      rw [hIH.1]
      refine Prod.ext ?_ ?_
      · show _ = { (h :: rest).foldl (fun m2 h2 => h2.process m2) msg with stop := true }
        rw [List.foldl_cons, hpm]
      · show rest.length + 1 + 1 = (h :: rest).length + 1
        simp [List.length_cons]
    · intro post2
      have hIH2 := intervene_stop_spec rest cf post2 (h.tweak msg) hcf
        (fun h2 hh2 => hpre h2 (List.mem_cons_of_mem _ hh2)) hstop1
      show (let msg1 := h.process msg;
        if msg1.stop then (msg1, 1)
        else
          let r := dispatchIntervene (rest ++ cf :: post) msg1
          (r.1, r.2 + 1)) =
        (let msg1 := h.process msg;
          if msg1.stop then (msg1, 1)
          else
            let r := dispatchIntervene (rest ++ cf :: post2) msg1
            (r.1, r.2 + 1))
      rw [hpm]
      simp only [hstop1, if_false, Bool.false_eq_true]
      rw [hIH.1, hIH2.1]

/-- Witness for C10 at a concrete input: a stack of one inert inner
handler, then a counterfactual handler, then another counterfactual
handler pushed earlier — dispatch invokes exactly two handlers and the
third never runs. -/
theorem intervene_stop_witness :
    dispatchIntervene
        [⟨false, fun m => m⟩, ⟨true, fun m => m⟩, ⟨true, fun m => m⟩]
        ⟨none, .base 0, .base 1, none, false, false⟩ =
      (⟨none, .base 0, .base 1, none, true, false⟩, 2) := by
  have h := (intervene_stop_spec [⟨false, fun m => m⟩] ⟨true, fun m => m⟩
    [⟨true, fun m => m⟩] ⟨none, .base 0, .base 1, none, false, false⟩
    rfl (by intro h2 hh2; simp at hh2; subst hh2; exact ⟨rfl, fun m2 => rfl⟩)
    rfl).1
  exact h

end Chirho
